import Mathlib

/-!
Verification of the lazy-astroph matching-and-routing engine
(`lazy_astroph.py`).  Python strings are modelled as lists of
characters (`PyStr`), so that every operation is structurally
recursive and computable by the kernel.  Each definition mirrors one
piece of the source; the line references in the doc comments point
into `lazy_astroph.py`.
-/

/-- Python strings, modelled as lists of characters. -/
abbrev PyStr := List Char

/-- Python `s.lower()` (ASCII case folding, as in `Char.toLower`). -/
def pyLower (s : PyStr) : PyStr := s.map Char.toLower

/-- Python `s.replace("\n", " ")`. -/
def pyReplaceNl (s : PyStr) : PyStr := s.map (fun c => if c = '\n' then ' ' else c)

/-- Does `needle` start `hay`?  (helper for the substring test). -/
def hasPre : PyStr → PyStr → Bool
  | [], _ => true
  | _ :: _, [] => false
  | a :: as, b :: bs => decide (a = b) && hasPre as bs

/-- Python `needle in hay` for strings: substring containment. -/
def hasSub (needle : PyStr) : PyStr → Bool
  | [] => hasPre needle []
  | c :: cs => hasPre needle (c :: cs) || hasSub needle cs

/-- Chunks of `s` between whitespace characters (may be empty). -/
def wsChunks (acc : PyStr) : PyStr → List PyStr
  | [] => [acc.reverse]
  | c :: cs => if c.isWhitespace then acc.reverse :: wsChunks [] cs else wsChunks (c :: acc) cs

/-- Python `s.split()` with no argument: split on whitespace runs,
dropping empty pieces. -/
def pysplit (s : PyStr) : List PyStr := (wsChunks [] s).filter (fun t => !t.isEmpty)

/-- The punctuation characters of the Python literal `'\":.,!?'` used
by `get_match` for `unique` matching (line 228). -/
def punctChars : PyStr := ['\"', ':', '.', ',', '!', '?']

/-- Python `s.strip('\":.,!?')`: remove those characters from both ends. -/
def stripPunct (s : PyStr) : PyStr :=
  ((s.dropWhile (punctChars.contains ·)).reverse.dropWhile (punctChars.contains ·)).reverse

/-- Python `s.strip()` with no argument: trim surrounding whitespace. -/
def pyTrim (s : PyStr) : PyStr :=
  ((s.dropWhile Char.isWhitespace).reverse.dropWhile Char.isWhitespace).reverse

/-- Python `<` on strings: lexicographic comparison by code point. -/
def charListLt : PyStr → PyStr → Bool
  | [], [] => false
  | [], _ :: _ => true
  | _ :: _, [] => false
  | a :: as, b :: bs => if a < b then true else if b < a then false else charListLt as bs

/-- Python `list(set(xs))` keeping the first occurrence of each element
(identity of survivors; the claims below only use counts and
membership, which do not depend on set iteration order). -/
def pyDedupAux {α : Type} [DecidableEq α] (seen : List α) : List α → List α
  | [] => []
  | x :: xs => if x ∈ seen then pyDedupAux seen xs else x :: pyDedupAux (x :: seen) xs

/-- Python `list(set(xs))`, see `pyDedupAux`. -/
def pyDedup {α : Type} [DecidableEq α] (l : List α) : List α := pyDedupAux [] l

/-- A keyword rule (`Keyword.__init__`, lines 90-104).  `matching` is the
source's `"any"`/`"unique"` tag; `excludes` is stored deduplicated
(`list(set(excludes))`). -/
structure Keyword where
  name : PyStr
  matching : String
  required : Bool
  channel : Option PyStr
  excludes : List PyStr
  deriving DecidableEq

/-- A paper (`Paper.__init__`, lines 52-64).  `posted_to_slack` starts
false (`0` in the source). -/
structure Paper where
  arxiv_id : PyStr
  title : PyStr
  url : PyStr
  keywords : List PyStr
  channels : List (Option PyStr)
  posted_to_slack : Bool
  deriving DecidableEq

/-- `Paper.__init__` (lines 58-64): the title loses its apostrophes
(`title.replace("'", r"")`), the channel list is deduplicated
(`list(set(channels))`), and `posted_to_slack` starts false. -/
def mkPaper (arxiv_id title url : PyStr) (keywords : List PyStr)
    (channels : List (Option PyStr)) : Paper :=
  ⟨arxiv_id, title.filter (fun c => !(c = Char.ofNat 39)), url, keywords, pyDedup channels, false⟩

/-- The exclusion test of `get_match` (lines 214-218): some exclude
string occurs in the lower-cased abstract with newlines replaced by
spaces, or in the lower-cased title. -/
def excludeTriggered (k : Keyword) (title abstract : PyStr) : Bool :=
  k.excludes.any (fun n => hasSub n (pyReplaceNl (pyLower abstract)) || hasSub n (pyLower title))

/-- The token lists `qa`/`qt` of `get_match` (lines 228-229): split on
whitespace, lower-case, strip the designated punctuation. -/
def uniqueTokens (s : PyStr) : List PyStr := (pysplit s).map (fun t => stripPunct (pyLower t))

/-- `get_match` (lines 211-233): returns `(matched?, excluded?)`.
Exclusion is evaluated first and reports `(true, true)`; `"any"`
matching is substring containment; `"unique"` matching is membership
among the punctuation-stripped lower-cased whitespace tokens. -/
def get_match (title abstract : PyStr) (k : Keyword) : Bool × Bool :=
  if excludeTriggered k title abstract then (true, true)
  else if k.matching = "any" then
    (if hasSub k.name (pyReplaceNl (pyLower abstract)) || hasSub k.name (pyLower title) then
      (true, false)
    else (false, false))
  else if k.matching = "unique" then
    (if k.name ∈ uniqueTokens abstract ++ uniqueTokens title then (true, false)
    else (false, false))
  else (false, false)

/-- The per-entry rule loop of `do_query` (lines 235-245): collects
`key_match_results`.  A required rule that did not match sets
`meets_requirements = False` and `break`s — rules after it are not
evaluated, but results accumulated before it are kept (and
`meets_requirements` is never read again in the source). -/
def matchLoop (title abstract : PyStr) : List Keyword → List Keyword
  | [] => []
  | k :: rest =>
    let r := get_match title abstract k
    if k.required && !r.1 then []
    else if r.1 && !r.2 then k :: matchLoop title abstract rest
    else matchLoop title abstract rest

/-- `keys_matched` of `do_query` (lines 247-254): the deduplicated names
of the matched, non-excluded rules. -/
def keysMatched (title abstract : PyStr) (keywords : List Keyword) : List PyStr :=
  pyDedup ((matchLoop title abstract keywords).map (fun k => k.name))

/-- The `channels` list of `do_query` (lines 248-251). -/
def matchChannels (title abstract : PyStr) (keywords : List Keyword) : List (Option PyStr) :=
  (matchLoop title abstract keywords).map (fun k => k.channel)

/-- One entry of `do_query` after the resume-marker test (lines 180,
235-256): the title has newlines replaced (line 180), and a `Paper` is
produced only when `keys_matched` is non-empty (line 255). -/
def entryPaper (keywords : List Keyword) (arxiv_id rawTitle url abstract : PyStr) :
    Option Paper :=
  let title := pyReplaceNl rawTitle
  let km := keysMatched title abstract keywords
  if km.isEmpty then none
  else some (mkPaper arxiv_id title url km (matchChannels title abstract keywords))

/-- Python `s.split(sep)[...]` for a one-character separator. -/
def splitChar (sep : Char) : PyStr → List PyStr
  | [] => [[]]
  | c :: cs =>
    if c = sep then [] :: splitChar sep cs
    else
      match splitChar sep cs with
      | [] => [[c]]
      | t :: ts => (c :: t) :: ts

/-- `arxiv_id.split("v")[0]` (line 194): the part before the first `v`. -/
def stripVer (s : PyStr) : PyStr := s.takeWhile (fun c => !(c = 'v'))

/-- Value of a digit character. -/
def digitVal (c : Char) : Nat := c.toNat - 48

/-- Numeric value of a non-empty all-digit string. -/
def digitsVal (s : PyStr) : Option Nat :=
  if s.isEmpty then none
  else if s.all Char.isDigit then some (s.foldl (fun acc c => 10 * acc + digitVal c) 0)
  else none

/-- Modelled from Python `float(s)` restricted to the decimal numerals
`digits` and `digits.digits` that arXiv identifiers take after version
stripping.  The value is kept exactly as a scaled pair `(num, k)`
standing for `num / 10 ^ k`; comparing these rationals agrees with the
source's double comparison, since the identifiers have far fewer
significant digits than a double holds. -/
def decimalValue (s : PyStr) : Option (Nat × Nat) :=
  match splitChar '.' s with
  | [a] => (digitsVal a).map (fun x => (x, 0))
  | [a, b] =>
    match digitsVal a, digitsVal b with
    | some x, some y => some (x * 10 ^ b.length + y, b.length)
    | _, _ => none
  | _ => none

/-- `float(arxiv_id.split("v")[0])` (line 194), as a scaled pair. -/
def idValue (s : PyStr) : Option (Nat × Nat) := decimalValue (stripVer s)

/-- Order on scaled decimal values by cross multiplication:
`v.1 / 10 ^ v.2 < w.1 / 10 ^ w.2`. -/
def decValLt (v w : Nat × Nat) : Bool := decide (v.1 * 10 ^ w.2 < w.1 * 10 ^ v.2)

/-- The resume-marker test of `do_query` (lines 192-195): with a prior
marker, an entry is skipped (`continue`) exactly when its
version-stripped numeric id is strictly below the marker's.  `none`
models the `ValueError` Python would raise on a non-numeric id. -/
def skipOld (arxiv_id : PyStr) (old_id : Option PyStr) : Option Bool :=
  match old_id with
  | none => some false
  | some o =>
    match idValue arxiv_id, idValue o with
    | some v, some w => some (decValLt v w)
    | _, _ => none

/-- Deduplication of `list(set(cat_papers))` in `search_arxiv`
(line 310): `Paper.__eq__`/`__hash__` compare only `arxiv_id`
(lines 66-70), so one paper per id survives. -/
def dedupGo (seen : List PyStr) : List Paper → List Paper
  | [] => []
  | p :: rest =>
    if p.arxiv_id ∈ seen then dedupGo seen rest
    else p :: dedupGo (p.arxiv_id :: seen) rest

/-- See `dedupGo`. -/
def dedupById (l : List Paper) : List Paper := dedupGo [] l

/-- `Paper.kw_str` (lines 76-78): `", ".join(self.keywords)`. -/
def paperKwStr (p : Paper) : PyStr := List.intercalate (',' :: ' ' :: []) p.keywords

/-- `Paper.__lt__` (lines 80-87): by number of keywords, then by the
joined keyword string. -/
def paperBelow (a b : Paper) : Bool :=
  if a.keywords.length = b.keywords.length then charListLt (paperKwStr a) (paperKwStr b)
  else decide (a.keywords.length < b.keywords.length)

/-- `cat_papers.sort(reverse=True)` (line 311): stable descending sort
under `Paper.__lt__`. -/
def sortDesc (l : List Paper) : List Paper := l.mergeSort (fun a b => !(paperBelow a b))

/-- The aggregation step of `search_arxiv` (lines 304-311): concatenate
the per-category results, deduplicate by id, sort descending. -/
def search_arxiv_merge (qs : List (List Paper)) : List Paper :=
  sortDesc (dedupById qs.flatten)

/-- The paper test shared by `filter_keyword_requires` (lines 326-328)
apart from the `posted_to_slack` guard: the channel is among the
paper's channels and the keyword count meets the channel's threshold. -/
def chQual (c : PyStr) (n : Nat) (p : Paper) : Bool :=
  decide (some c ∈ p.channels) && decide (n ≤ p.keywords.length)

/-- `p.posted_to_slack = 1` (line 330). -/
def markPosted (p : Paper) : Paper := { p with posted_to_slack := true }

/-- The reset loop of `filter_keyword_requires` (lines 322-323). -/
def resetFlags (papers : List Paper) : List Paper :=
  papers.map (fun p => { p with posted_to_slack := false })

/-- The inner loop of `filter_keyword_requires` for one channel
(lines 325-330): returns the papers selected for the channel and the
paper list with their `posted_to_slack` flags set (the source mutates
the shared `Paper` objects). -/
def selectChannel (c : PyStr) (n : Nat) : List Paper → List Paper × List Paper
  | [] => ([], [])
  | p :: rest =>
    let r := selectChannel c n rest
    if !p.posted_to_slack && chQual c n p then (markPosted p :: r.1, markPosted p :: r.2)
    else (r.1, p :: r.2)

/-- The outer channel loop of `filter_keyword_requires` (lines 324-330):
selected papers accumulate across channels in channel order, and flag
mutations carry over. -/
def filterLoop : List (PyStr × Nat) → List Paper → List Paper × List Paper
  | [], papers => ([], papers)
  | (c, n) :: rest, papers =>
    let r := selectChannel c n papers
    let r2 := filterLoop rest r.2
    (r.1 ++ r2.1, r2.2)

/-- `filter_keyword_requires` (lines 316-331).  `none` models the Python
`channel_req is None` case, which returns the input unchanged; a
present mapping (a dict, possibly empty) resets all flags and runs the
channel loop. -/
def filter_keyword_requires (papers : List Paper) :
    Option (List (PyStr × Nat)) → List Paper
  | none => papers
  | some req => (filterLoop req (resetFlags papers)).1

/-- Per-channel selections of the channel loop, in channel order (the
papers appended to `filtered_papers` during each channel's pass of
lines 325-330). -/
def channelSels (papers : List Paper) : List (PyStr × Nat) → List (List Paper)
  | [] => []
  | (c, n) :: rest => (selectChannel c n papers).1 :: channelSels (selectChannel c n papers).2 rest

/-- The selection of the `j`-th channel of the mapping (empty when out
of range). -/
def groupSel (papers : List Paper) (req : List (PyStr × Nat)) (j : Nat) : List Paper :=
  (channelSels papers req).getD j []

/-- Does any channel of `req` qualify `p` (ignoring the flag)? -/
def anyQual (req : List (PyStr × Nat)) (p : Paper) : Bool :=
  req.any (fun cn => chQual cn.1 cn.2 p)

/-- `Paper.__str__` (lines 72-74): `"{} : {}\n  {}\n"` with the title's
whitespace collapsed (`" ".join(self.title.split())`). -/
def pyStrPaper (p : Paper) : PyStr :=
  p.arxiv_id ++ (' ' :: ':' :: ' ' :: []) ++ List.intercalate [' '] (pysplit p.title)
    ++ ('\n' :: ' ' :: ' ' :: []) ++ p.url ++ ['\n']

/-- The formatted line `u"{} [{}]\n\n".format(p, keywds)` of
`slack_post` (lines 382-383). -/
def slackLine (p : Paper) : PyStr :=
  pyStrPaper p ++ (' ' :: '[' :: []) ++ pyTrim (List.intercalate (',' :: ' ' :: []) p.keywords)
    ++ (']' :: '\n' :: '\n' :: [])

/-- The body-building loop of `slack_post` for one channel
(lines 377-384): same guard as the filter, appending a formatted line
per selected paper and setting the flag. -/
def slackChannelLoop (c : PyStr) (n : Nat) : List Paper → PyStr × List Paper
  | [] => ([], [])
  | p :: rest =>
    if !p.posted_to_slack && chQual c n p then
      let r := slackChannelLoop c n rest
      (slackLine p ++ r.1, markPosted p :: r.2)
    else
      let r := slackChannelLoop c n rest
      (r.1, p :: r.2)

/-- `slack_post` (lines 372-399) restricted to its payload computation:
for each channel of `channel_req`, in order, the text
(`payload["text"]`) that would be posted to the webhook. -/
def slack_post (papers : List Paper) : List (PyStr × Nat) → List (PyStr × PyStr)
  | [] => []
  | (c, n) :: rest =>
    let r := slackChannelLoop c n papers
    (c, r.1) :: slack_post r.2 rest

/-- The keyword-suffix handling of `doit` (lines 461-471): `last_two` is
`kw[-2:]`; a `-` anywhere in it selects `unique` matching and drops the
final character; a `!` anywhere in it (still in the original
`last_two`) marks the rule required and drops another final character.
Returns `(text, matching, required)`. -/
def parseSuffix (kw : PyStr) : PyStr × String × Bool :=
  let lastTwo := kw.drop (kw.length - 2)
  let s1 : PyStr × String := if '-' ∈ lastTwo then (kw.dropLast, "unique") else (kw, "any")
  let s2 : PyStr × Bool := if '!' ∈ lastTwo then (s1.1.dropLast, true) else (s1.1, false)
  (s2.1, s1.2, s2.2)

/-! ## Helper lemmas -/

theorem selectChannel_fst (c : PyStr) (n : Nat) (l : List Paper) :
    (selectChannel c n l).1
      = (l.filter (fun p => !p.posted_to_slack && chQual c n p)).map markPosted := by
  induction l with
  | nil => rfl
  | cons p rest ih =>
    cases hb : (!p.posted_to_slack && chQual c n p) with
    | false => simp [selectChannel, hb, ih, List.filter_cons]
    | true => simp [selectChannel, hb, ih, List.filter_cons]

theorem selectChannel_snd (c : PyStr) (n : Nat) (l : List Paper) :
    (selectChannel c n l).2
      = l.map (fun p => if (!p.posted_to_slack && chQual c n p) = true then markPosted p else p) := by
  induction l with
  | nil => rfl
  | cons p rest ih =>
    cases hb : (!p.posted_to_slack && chQual c n p) with
    | false =>
      have hif : (if (!p.posted_to_slack && chQual c n p) = true then markPosted p else p) = p :=
        if_neg (by simp [hb])
      rw [List.map_cons, hif, ← ih]
      simp [selectChannel, hb]
    | true =>
      have hif :
          (if (!p.posted_to_slack && chQual c n p) = true then markPosted p else p)
            = markPosted p :=
        if_pos hb
      rw [List.map_cons, hif, ← ih]
      simp [selectChannel, hb]

theorem mem_filterLoop_fst_flag (req : List (PyStr × Nat)) (l : List Paper) (q : Paper)
    (hq : q ∈ (filterLoop req l).1) : q.posted_to_slack = true := by
  induction req generalizing l with
  | nil => simp [filterLoop] at hq
  | cons cn rest ih =>
    obtain ⟨c, n⟩ := cn
    simp only [filterLoop, List.mem_append] at hq
    rcases hq with hq | hq
    · rw [selectChannel_fst] at hq
      obtain ⟨r, _, rfl⟩ := List.mem_map.mp hq
      rfl
    · exact ih _ hq

theorem slackChannelLoop_flagged (c : PyStr) (n : Nat) (l : List Paper)
    (h : ∀ p ∈ l, p.posted_to_slack = true) : slackChannelLoop c n l = ([], l) := by
  induction l with
  | nil => rfl
  | cons p rest ih =>
    have hp : p.posted_to_slack = true := h p (by simp)
    have hcond : (!p.posted_to_slack && chQual c n p) = false := by simp [hp]
    simp [slackChannelLoop, hcond, ih (fun q hq => h q (by simp [hq]))]

theorem slack_post_flagged (l : List Paper) (req : List (PyStr × Nat))
    (h : ∀ p ∈ l, p.posted_to_slack = true) :
    slack_post l req = req.map (fun cn => (cn.1, ([] : PyStr))) := by
  induction req with
  | nil => rfl
  | cons cn rest ih =>
    obtain ⟨c, n⟩ := cn
    simp [slack_post, slackChannelLoop_flagged c n l h, ih]

/-! ## Claims -/

/-- C1: the claim says a failing required rule always disqualifies the
entry regardless of its position.  In the source, the required check
only `break`s out of the rule loop (line 242) and the accumulated
`meets_requirements = False` is never read afterwards, so matches
collected before the failing required rule survive: with rules
`[jet, black hole (required)]` and text containing "jet" but not
"black hole", the entry still yields the matched keyword "jet" and a
`Paper` is produced. -/
theorem c1_required_failure_after_match_still_produces_paper :
    keysMatched "jet stream observed".toList "we study outflows".toList
        [⟨"jet".toList, "any", false, some "#astro".toList, []⟩,
         ⟨"black hole".toList, "any", true, some "#astro".toList, []⟩] = ["jet".toList]
    ∧ entryPaper
        [⟨"jet".toList, "any", false, some "#astro".toList, []⟩,
         ⟨"black hole".toList, "any", true, some "#astro".toList, []⟩]
        "2301.00001".toList "jet stream observed".toList "u".toList "we study outflows".toList
      = some (mkPaper "2301.00001".toList "jet stream observed".toList "u".toList
          ["jet".toList] [some "#astro".toList]) := by
  exact ⟨by decide, by decide⟩

/-- C2: the claim says the per-channel webhook payload built after
channel filtering contains exactly that channel's selected papers.  In
the source, `filter_keyword_requires` sets `posted_to_slack = 1` on
every paper it selects and `doit` passes its output to `slack_post`,
whose guard `if not p.posted_to_slack` then rejects every paper — so
every per-channel payload text is empty.  The first conjunct proves
this for all inputs; the remaining conjuncts evaluate the failing
input: one paper selected for `#general`, yet an empty payload. -/
theorem c2_slack_payload_after_filter_is_always_empty :
    (∀ (papers : List Paper) (req req2 : List (PyStr × Nat)),
        slack_post (filter_keyword_requires papers (some req)) req2
          = req2.map (fun cn => (cn.1, ([] : PyStr))))
    ∧ filter_keyword_requires
          [⟨"2301.00001".toList, "a title".toList, "u".toList, ["kw".toList],
            [some "#general".toList], false⟩] (some [("#general".toList, 1)])
        = [⟨"2301.00001".toList, "a title".toList, "u".toList, ["kw".toList],
            [some "#general".toList], true⟩]
    ∧ slack_post
          (filter_keyword_requires
            [⟨"2301.00001".toList, "a title".toList, "u".toList, ["kw".toList],
              [some "#general".toList], false⟩] (some [("#general".toList, 1)]))
          [("#general".toList, 1)]
        = [("#general".toList, [])] := by
  refine ⟨fun papers req req2 => ?_, by decide, by decide⟩
  exact slack_post_flagged _ req2 (fun p hp => mem_filterLoop_fst_flag req _ p hp)

/-- C3 counterexample: with the empty mapping (a dict with no
channels, as `doit` builds when the input file declares no channel),
`filter_keyword_requires` returns the empty list, not the input
list. -/
theorem c3_counterexample :
    filter_keyword_requires
        [⟨"2301.00001".toList, "t".toList, "u".toList, ["kw".toList],
          [some "#general".toList], false⟩] (some []) = []
    ∧ ¬ filter_keyword_requires
        [⟨"2301.00001".toList, "t".toList, "u".toList, ["kw".toList],
          [some "#general".toList], false⟩] (some [])
      = [⟨"2301.00001".toList, "t".toList, "u".toList, ["kw".toList],
          [some "#general".toList], false⟩] := by
  exact ⟨by decide, by decide⟩

/-- C3 (amended): the filter is the identity exactly when no mapping is
supplied at all (`channel_req is None`); with a present but empty
mapping the channel loop runs over no channels and the output is the
empty list, whatever the input papers. -/
theorem c3_no_mapping_identity_empty_mapping_empty (papers : List Paper) :
    filter_keyword_requires papers none = papers
    ∧ filter_keyword_requires papers (some []) = [] := by
  exact ⟨rfl, rfl⟩

/-- C4 counterexample: the keyword `ab-c` has no trailing suffix
character, yet the parser sees the `-` in its last two characters,
switches to `unique` matching and strips the final `c`: the stored
text `ab-` differs from the written keyword. -/
theorem c4_counterexample :
    parseSuffix "ab-c".toList = ("ab-".toList, "unique", false)
    ∧ ¬ (parseSuffix "ab-c".toList).1 = "ab-c".toList := by
  exact ⟨by decide, by decide⟩

/-- C6: a triggered exclude list makes `get_match` report excluded, and
the rule then contributes nothing: the rule loop, the matched-keyword
set and the channel list are as if the rule were absent. -/
theorem c6_exclusion_suppresses_rule (k : Keyword) (rest : List Keyword)
    (title abstract : PyStr)
    (hx : excludeTriggered k title abstract = true) :
    (get_match title abstract k).2 = true
    ∧ matchLoop title abstract (k :: rest) = matchLoop title abstract rest
    ∧ keysMatched title abstract (k :: rest) = keysMatched title abstract rest
    ∧ matchChannels title abstract (k :: rest) = matchChannels title abstract rest := by
  have hg : get_match title abstract k = (true, true) := by simp [get_match, hx]
  have hl : matchLoop title abstract (k :: rest) = matchLoop title abstract rest := by
    simp [matchLoop, hg]
  exact ⟨by simp [hg], hl, by simp [keysMatched, hl], by simp [matchChannels, hl]⟩

/-- C6 witness: rule "nova" excluding "dwarf", with both words present
in the abstract. -/
theorem c6_witness :
    excludeTriggered ⟨"nova".toList, "any", false, some "#a".toList, ["dwarf".toList]⟩
        "a title".toList "a dwarf nova outburst".toList = true
    ∧ keysMatched "a title".toList "a dwarf nova outburst".toList
        [⟨"nova".toList, "any", false, some "#a".toList, ["dwarf".toList]⟩,
         ⟨"outburst".toList, "any", false, some "#b".toList, []⟩]
      = keysMatched "a title".toList "a dwarf nova outburst".toList
        [⟨"outburst".toList, "any", false, some "#b".toList, []⟩] := by
  refine ⟨by decide, ?_⟩
  exact (c6_exclusion_suppresses_rule
    ⟨"nova".toList, "any", false, some "#a".toList, ["dwarf".toList]⟩
    [⟨"outburst".toList, "any", false, some "#b".toList, []⟩]
    "a title".toList "a dwarf nova outburst".toList (by decide)).2.2.1

/-- C10: a required rule whose exclude list is triggered reports
`(matched, excluded) = (true, true)` (lines 220-221), so the required
check `if k.required and not match` passes and the entry is not
disqualified — yet the rule contributes no keyword and no channel, and
the entry survives whenever the remaining rules produce a match. -/
theorem c10_excluded_required_rule_does_not_disqualify (k : Keyword) (rest : List Keyword)
    (title abstract : PyStr)
    (hreq : k.required = true)
    (hx : excludeTriggered k title abstract = true) :
    (get_match title abstract k).1 = true
    ∧ matchLoop title abstract (k :: rest) = matchLoop title abstract rest
    ∧ (matchLoop title abstract rest ≠ [] → keysMatched title abstract (k :: rest) ≠ []) := by
  have hg : get_match title abstract k = (true, true) := by simp [get_match, hx]
  have hl : matchLoop title abstract (k :: rest) = matchLoop title abstract rest := by
    simp [matchLoop, hg]
  refine ⟨by simp [hg], hl, fun hne => ?_⟩
  rw [keysMatched, hl]
  cases hml : matchLoop title abstract rest with
  | nil => exact absurd hml hne
  | cons a as => simp [pyDedup, pyDedupAux]

/-- C10 witness: required rule "black hole" excluding "dwarf"; the
abstract contains "dwarf" but no "black hole", and a second rule
"nova" matches — the entry survives with keyword "nova". -/
theorem c10_witness :
    excludeTriggered ⟨"black hole".toList, "any", true, some "#a".toList, ["dwarf".toList]⟩
        "a title".toList "a dwarf nova outburst".toList = true
    ∧ keysMatched "a title".toList "a dwarf nova outburst".toList
        [⟨"black hole".toList, "any", true, some "#a".toList, ["dwarf".toList]⟩,
         ⟨"nova".toList, "any", false, some "#b".toList, []⟩] ≠ [] := by
  refine ⟨by decide, ?_⟩
  exact (c10_excluded_required_rule_does_not_disqualify
    ⟨"black hole".toList, "any", true, some "#a".toList, ["dwarf".toList]⟩
    [⟨"nova".toList, "any", false, some "#b".toList, []⟩]
    "a title".toList "a dwarf nova outburst".toList rfl (by decide)).2.2 (by decide)

/-- C7: with a prior marker, an entry is skipped before any matching
exactly when its version-stripped numeric value is strictly below that
of the marker (also version-stripped); the values `(num, k)` stand for
the rational `num / 10 ^ k`. -/
theorem c7_resume_marker_strictly_less (e o : PyStr) (v w : Nat × Nat)
    (h1 : idValue e = some v) (h2 : idValue o = some w) :
    skipOld e (some o) = some (decValLt v w)
    ∧ (skipOld e (some o) = some true
        ↔ (v.1 : ℚ) / (10 : ℚ) ^ v.2 < (w.1 : ℚ) / (10 : ℚ) ^ w.2) := by
  have hs : skipOld e (some o) = some (decValLt v w) := by simp [skipOld, h1, h2]
  refine ⟨hs, ?_⟩
  rw [hs, div_lt_div_iff₀ (by positivity) (by positivity)]
  simp only [Option.some_inj, decValLt, decide_eq_true_eq]
  constructor
  · intro h
    exact_mod_cast h
  · intro h
    exact_mod_cast h

/-- C7 witness: with marker 2301.00010, entry 2301.00005 is skipped and
entry 2301.00015v2 (version stripped) is kept. -/
theorem c7_witness :
    idValue "2301.00005".toList = some (230100005, 5)
    ∧ idValue "2301.00010".toList = some (230100010, 5)
    ∧ idValue "2301.00015v2".toList = some (230100015, 5)
    ∧ skipOld "2301.00005".toList (some "2301.00010".toList) = some true
    ∧ skipOld "2301.00015v2".toList (some "2301.00010".toList) = some false := by
  refine ⟨by decide, by decide, by decide, ?_, ?_⟩
  · rw [(c7_resume_marker_strictly_less "2301.00005".toList "2301.00010".toList
      (230100005, 5) (230100010, 5) (by decide) (by decide)).1]
    decide
  · rw [(c7_resume_marker_strictly_less "2301.00015v2".toList "2301.00010".toList
      (230100015, 5) (230100010, 5) (by decide) (by decide)).1]
    decide

/-- C5: in `unique` (ExactWord) mode, with the exclusion test not
triggered, a rule matches exactly when its text equals some
whitespace-delimited token of the title or abstract after stripping
the surrounding punctuation `\":.,!?` and lower-casing. -/
theorem c5_unique_mode_matches_whole_tokens (k : Keyword) (title abstract : PyStr)
    (hm : k.matching = "unique")
    (hx : excludeTriggered k title abstract = false) :
    (get_match title abstract k).1 = true
      ↔ ∃ t, (t ∈ pysplit abstract ∨ t ∈ pysplit title)
          ∧ stripPunct (pyLower t) = k.name := by
  rw [get_match, hm]
  rw [if_neg (by simp [hx]), if_neg (by decide), if_pos rfl]
  by_cases h : k.name ∈ uniqueTokens abstract ++ uniqueTokens title
  · rw [if_pos h]
    refine iff_of_true rfl ?_
    simp only [uniqueTokens, List.mem_append, List.mem_map] at h
    rcases h with ⟨t, ht, hs⟩ | ⟨t, ht, hs⟩
    · exact ⟨t, Or.inl ht, hs⟩
    · exact ⟨t, Or.inr ht, hs⟩
  · rw [if_neg h]
    refine iff_of_false (by decide) ?_
    simp only [uniqueTokens, List.mem_append, List.mem_map] at h
    push_neg at h
    rintro ⟨t, ht | ht, hs⟩
    · exact h.1 t ht hs
    · exact h.2 t ht hs

/-- C5 witness: rule "nova" in `unique` mode matches "a nova was
observed" (via the token "nova") but not "supernova explosion". -/
theorem c5_witness :
    (⟨"nova".toList, "unique", false, some "#a".toList, []⟩ : Keyword).matching = "unique"
    ∧ excludeTriggered ⟨"nova".toList, "unique", false, some "#a".toList, []⟩
        "other words".toList "a nova was observed".toList = false
    ∧ (get_match "other words".toList "a nova was observed".toList
        ⟨"nova".toList, "unique", false, some "#a".toList, []⟩).1 = true
    ∧ (get_match "other words".toList "supernova explosion".toList
        ⟨"nova".toList, "unique", false, some "#a".toList, []⟩).1 = false := by
  refine ⟨rfl, by decide, ?_, by decide⟩
  exact (c5_unique_mode_matches_whole_tokens
      ⟨"nova".toList, "unique", false, some "#a".toList, []⟩
      "other words".toList "a nova was observed".toList rfl (by decide)).mpr
    ⟨"nova".toList, Or.inl (by decide), by decide⟩

theorem lastTwo_concat (cs : List Char) (x : Char) :
    (cs ++ [x]).drop ((cs ++ [x]).length - 2) = cs.drop (cs.length - 1) ++ [x] := by
  have e : (cs ++ [x]).length - 2 = cs.length - 1 := by simp
  rw [e, List.drop_append_of_le_length (Nat.sub_le _ _)]

theorem lastTwo_concat₂ (cs : List Char) (x y : Char) :
    (cs ++ [x, y]).drop ((cs ++ [x, y]).length - 2) = [x, y] := by
  have e : (cs ++ [x, y]).length - 2 = cs.length := by simp
  rw [e, List.drop_left]

theorem mem_drop_one_of_two (cs : List Char) (c : Char)
    (h : c ∈ cs.drop (cs.length - 1)) : c ∈ cs.drop (cs.length - 2) := by
  have e : cs.drop (cs.length - 1)
      = (cs.drop (cs.length - 2)).drop ((cs.length - 1) - (cs.length - 2)) := by
    rw [List.drop_drop, Nat.add_sub_cancel' (Nat.sub_le_sub_left (by norm_num) _)]
  rw [e] at h
  exact List.drop_subset _ _ h

/-- C4 (amended): for a keyword whose last two characters contain
neither `-` nor `!`, the parser stores the text unchanged with
substring matching; appending `-`, `!`, `-!` or `!-` strips exactly
the appended suffix characters and sets the corresponding mode and
required flag.  (As stated the claim is false: the parser tests
whether `-` or `!` occurs anywhere in the last TWO characters and then
drops the final character, so a suffix character in penultimate
position corrupts the keyword — see the counterexample.) -/
theorem c4_suffixes_stripped_when_trailing (cs : List Char)
    (h1 : '-' ∉ cs.drop (cs.length - 2))
    (h2 : '!' ∉ cs.drop (cs.length - 2)) :
    parseSuffix cs = (cs, "any", false)
    ∧ parseSuffix (cs ++ ['-']) = (cs, "unique", false)
    ∧ parseSuffix (cs ++ ['!']) = (cs, "any", true)
    ∧ parseSuffix (cs ++ ['-', '!']) = (cs, "unique", true)
    ∧ parseSuffix (cs ++ ['!', '-']) = (cs, "unique", true) := by
  have h1' : '-' ∉ cs.drop (cs.length - 1) := fun h => h1 (mem_drop_one_of_two cs _ h)
  have h2' : '!' ∉ cs.drop (cs.length - 1) := fun h => h2 (mem_drop_one_of_two cs _ h)
  refine ⟨?_, ?_, ?_, ?_, ?_⟩
  · simp only [parseSuffix]
    rw [if_neg h1, if_neg h2]
  · have hm1 : '-' ∈ cs.drop (cs.length - 1) ++ ['-'] := by simp
    have hm2 : '!' ∉ cs.drop (cs.length - 1) ++ ['-'] := by simp [h2']
    simp only [parseSuffix, lastTwo_concat]
    rw [if_neg hm2, if_pos hm1, List.dropLast_concat]
  · have hm1 : '-' ∉ cs.drop (cs.length - 1) ++ ['!'] := by simp [h1']
    have hm2 : '!' ∈ cs.drop (cs.length - 1) ++ ['!'] := by simp
    simp only [parseSuffix, lastTwo_concat]
    rw [if_pos hm2, if_neg hm1, List.dropLast_concat]
  · have hm1 : '-' ∈ (['-', '!'] : List Char) := by simp
    have hm2 : '!' ∈ (['-', '!'] : List Char) := by simp
    have e : cs ++ ['-', '!'] = (cs ++ ['-']) ++ ['!'] := by simp
    simp only [parseSuffix, lastTwo_concat₂]
    rw [if_pos hm2, if_pos hm1, e, List.dropLast_concat, List.dropLast_concat]
  · have hm1 : '-' ∈ (['!', '-'] : List Char) := by simp
    have hm2 : '!' ∈ (['!', '-'] : List Char) := by simp
    have e : cs ++ ['!', '-'] = (cs ++ ['!']) ++ ['-'] := by simp
    simp only [parseSuffix, lastTwo_concat₂]
    rw [if_pos hm2, if_pos hm1, e, List.dropLast_concat, List.dropLast_concat]

/-- C4 witness: the keyword text "ab" and its five suffix variants. -/
theorem c4_witness :
    '-' ∉ "ab".toList.drop ("ab".toList.length - 2)
    ∧ '!' ∉ "ab".toList.drop ("ab".toList.length - 2)
    ∧ parseSuffix "ab".toList = ("ab".toList, "any", false)
    ∧ parseSuffix "ab-".toList = ("ab".toList, "unique", false)
    ∧ parseSuffix "ab!".toList = ("ab".toList, "any", true)
    ∧ parseSuffix "ab-!".toList = ("ab".toList, "unique", true)
    ∧ parseSuffix "ab!-".toList = ("ab".toList, "unique", true) := by
  have h := c4_suffixes_stripped_when_trailing "ab".toList (by decide) (by decide)
  exact ⟨by decide, by decide, h.1, h.2.1, h.2.2.1, h.2.2.2.1, h.2.2.2.2⟩

theorem countP_dedupGo_zero (l : List Paper) (seen : List PyStr) (a : PyStr) (h : a ∈ seen) :
    ((dedupGo seen l).countP (fun p => decide (p.arxiv_id = a))) = 0 := by
  induction l generalizing seen with
  | nil => rfl
  | cons p rest ih =>
    by_cases hmem : p.arxiv_id ∈ seen
    · rw [dedupGo, if_pos hmem]
      exact ih seen h
    · rw [dedupGo, if_neg hmem, List.countP_cons]
      have hne : ¬ p.arxiv_id = a := fun e => hmem (e ▸ h)
      rw [decide_eq_false hne]
      simp only [Bool.false_eq_true, if_false, Nat.add_zero]
      exact ih (p.arxiv_id :: seen) (List.mem_cons_of_mem _ h)

theorem countP_dedupGo_one (l : List Paper) (seen : List PyStr) (a : PyStr)
    (ha : a ∉ seen) (hex : ∃ p ∈ l, p.arxiv_id = a) :
    ((dedupGo seen l).countP (fun p => decide (p.arxiv_id = a))) = 1 := by
  induction l generalizing seen with
  | nil => simp at hex
  | cons p rest ih =>
    by_cases hmem : p.arxiv_id ∈ seen
    · have hne : ¬ p.arxiv_id = a := fun e => ha (e ▸ hmem)
      rw [dedupGo, if_pos hmem]
      refine ih seen ha ?_
      rcases hex with ⟨q, hq, hqa⟩
      rcases List.mem_cons.mp hq with rfl | hq'
      · exact absurd hqa hne
      · exact ⟨q, hq', hqa⟩
    · rw [dedupGo, if_neg hmem, List.countP_cons]
      by_cases hpa : p.arxiv_id = a
      · rw [countP_dedupGo_zero rest (p.arxiv_id :: seen) a (hpa ▸ List.mem_cons_self _ _)]
        simp [hpa]
      · rw [decide_eq_false hpa]
        simp only [Bool.false_eq_true, if_false, Nat.add_zero]
        refine ih (p.arxiv_id :: seen) ?_ ?_
        · intro hc
          rcases List.mem_cons.mp hc with e | hc'
          · exact hpa e.symm
          · exact ha hc'
        · rcases hex with ⟨q, hq, hqa⟩
          rcases List.mem_cons.mp hq with rfl | hq'
          · exact absurd hqa hpa
          · exact ⟨q, hq', hqa⟩

/-- C9: `Paper.__eq__`/`__hash__` compare only the entry id, so the
`list(set(...))` aggregation of `search_arxiv` keeps exactly one paper
per id: any id occurring in the concatenated per-category query
results occurs exactly once in the deduplicated, sorted output (the
descending sort is a permutation and does not change counts). -/
theorem c9_aggregate_keeps_each_id_once (qs : List (List Paper)) (a : PyStr)
    (hex : ∃ p ∈ qs.flatten, p.arxiv_id = a) :
    ((search_arxiv_merge qs).countP (fun p => decide (p.arxiv_id = a))) = 1 := by
  unfold search_arxiv_merge sortDesc
  rw [List.Perm.countP_eq _ (List.mergeSort_perm _ _)]
  exact countP_dedupGo_one qs.flatten [] a (by simp) hex

/-- C9 witness: the same id returned by two category queries (with
different match data) survives exactly once. -/
theorem c9_witness :
    (∃ p ∈ ([[⟨"2301.00042".toList, "t1".toList, "u1".toList, ["kw1".toList], [some "#a".toList], false⟩],
             [⟨"2301.00042".toList, "t2".toList, "u2".toList, ["kw2".toList], [some "#b".toList], false⟩]] :
        List (List Paper)).flatten, p.arxiv_id = "2301.00042".toList)
    ∧ ((search_arxiv_merge
          [[⟨"2301.00042".toList, "t1".toList, "u1".toList, ["kw1".toList], [some "#a".toList], false⟩],
           [⟨"2301.00042".toList, "t2".toList, "u2".toList, ["kw2".toList], [some "#b".toList], false⟩]]).countP
        (fun p => decide (p.arxiv_id = "2301.00042".toList))) = 1 := by
  refine ⟨⟨⟨"2301.00042".toList, "t1".toList, "u1".toList, ["kw1".toList], [some "#a".toList], false⟩,
    by simp, rfl⟩, ?_⟩
  exact c9_aggregate_keeps_each_id_once _ _
    ⟨⟨"2301.00042".toList, "t1".toList, "u1".toList, ["kw1".toList], [some "#a".toList], false⟩,
      by simp, rfl⟩

theorem chQual_markPosted (c : PyStr) (n : Nat) (p : Paper) :
    chQual c n (markPosted p) = chQual c n p := rfl

theorem flag_markPosted (p : Paper) : (markPosted p).posted_to_slack = true := rfl

theorem arxivId_markPosted (p : Paper) : (markPosted p).arxiv_id = p.arxiv_id := rfl

theorem anyQual_markPosted (req : List (PyStr × Nat)) (p : Paper) :
    anyQual req (markPosted p) = anyQual req p := rfl

theorem anyQual_cons (cn : PyStr × Nat) (req : List (PyStr × Nat)) (p : Paper) :
    anyQual (cn :: req) p = (chQual cn.1 cn.2 p || anyQual req p) := by
  simp [anyQual]

theorem channelSels_length (req : List (PyStr × Nat)) (l : List Paper) :
    (channelSels l req).length = req.length := by
  induction req generalizing l with
  | nil => rfl
  | cons cn rest ih =>
    obtain ⟨c, n⟩ := cn
    simp [channelSels, ih]

theorem groupSel_out_of_range (req : List (PyStr × Nat)) (l : List Paper) (j : Nat)
    (h : req.length ≤ j) : groupSel l req j = [] := by
  rw [groupSel, List.getD_eq_getElem?_getD, List.getElem?_eq_none]
  · rfl
  · rw [channelSels_length]
    exact h

theorem filterLoop_fst_flatten (req : List (PyStr × Nat)) (l : List Paper) :
    (filterLoop req l).1 = (channelSels l req).flatten := by
  induction req generalizing l with
  | nil => rfl
  | cons cn rest ih =>
    obtain ⟨c, n⟩ := cn
    simp [filterLoop, channelSels, ih]

theorem mem_resetFlags_flag (papers : List Paper) (p : Paper) (h : p ∈ resetFlags papers) :
    p.posted_to_slack = false := by
  rw [resetFlags] at h
  obtain ⟨r, _, rfl⟩ := List.mem_map.mp h
  rfl

theorem resetFlags_map_id (papers : List Paper) :
    (resetFlags papers).map (fun q => q.arxiv_id) = papers.map (fun q => q.arxiv_id) := by
  rw [resetFlags, List.map_map]
  exact List.map_congr_left (fun _ _ => rfl)

theorem groupSel_eq (req : List (PyStr × Nat)) :
    ∀ (l : List Paper) (j : Nat) (hj : j < req.length),
    groupSel l req j
      = (l.filter (fun p => !p.posted_to_slack && !anyQual (req.take j) p
            && chQual (req.get ⟨j, hj⟩).1 (req.get ⟨j, hj⟩).2 p)).map markPosted := by
  induction req with
  | nil => intro l j hj; exact absurd hj (by simp)
  | cons cn rest ih =>
    obtain ⟨c, n⟩ := cn
    intro l j hj
    cases j with
    | zero =>
      rw [show groupSel l ((c, n) :: rest) 0 = (selectChannel c n l).1 from rfl,
        selectChannel_fst]
      apply congrArg (List.map markPosted)
      apply List.filter_congr
      intro p _
      simp [anyQual]
    | succ j =>
      have hj' : j < rest.length := by simpa using hj
      have hstep : groupSel l ((c, n) :: rest) (j + 1)
          = groupSel (selectChannel c n l).2 rest j := rfl
      rw [hstep, ih _ j hj', selectChannel_snd, List.filter_map, List.map_map]
      have hfil : List.filter
            ((fun p => !p.posted_to_slack && !anyQual (rest.take j) p
              && chQual (rest.get ⟨j, hj'⟩).1 (rest.get ⟨j, hj'⟩).2 p)
              ∘ (fun p => if (!p.posted_to_slack && chQual c n p) = true then markPosted p else p)) l
          = List.filter (fun p => !p.posted_to_slack
              && !anyQual (((c, n) :: rest).take (j + 1)) p
              && chQual ((((c, n) :: rest)).get ⟨j + 1, hj⟩).1
                   ((((c, n) :: rest)).get ⟨j + 1, hj⟩).2 p) l := by
        apply List.filter_congr
        intro p _
        cases hA : p.posted_to_slack with
        | true => simp [Function.comp, hA, anyQual_cons]
        | false =>
          cases hQ : chQual c n p with
          | true =>
            simp [Function.comp, hA, hQ, anyQual_cons, flag_markPosted, chQual_markPosted,
              anyQual_markPosted]
          | false => simp [Function.comp, hA, hQ, anyQual_cons]
      rw [hfil]
      apply List.map_congr_left
      intro p hp
      have hpred := (List.mem_filter.mp hp).2
      have hA : p.posted_to_slack = false := by
        cases hA : p.posted_to_slack with
        | false => rfl
        | true => rw [hA] at hpred; simp at hpred
      have hQ : chQual c n p = false := by
        cases hQ : chQual c n p with
        | false => rfl
        | true =>
          rw [List.take_succ_cons, anyQual_cons] at hpred
          rw [hQ] at hpred
          simp at hpred
      simp [Function.comp, hA, hQ]

/-- C8: in one pass of the Channel Filter over papers with pairwise
distinct ids, a paper matching the ruleset is selected for the first
channel (in mapping iteration order) for which it qualifies, and for
no other channel: the flat output is the concatenation of the
per-channel selections, the paper (with its delivered flag set)
appears in the first qualifying channel's selection, and every other
channel's selection excludes its id — in particular the paper is
selected at most once overall. -/
theorem c8_first_qualifying_channel_wins (papers : List Paper) (req : List (PyStr × Nat)) (p : Paper) (j1 : Nat)
    (hnodup : (papers.map (fun q => q.arxiv_id)).Nodup)
    (hp : p ∈ resetFlags papers)
    (h1 : j1 < req.length)
    (hq1 : chQual (req.get ⟨j1, h1⟩).1 (req.get ⟨j1, h1⟩).2 p = true)
    (hfirst : anyQual (req.take j1) p = false) :
    filter_keyword_requires papers (some req)
        = (channelSels (resetFlags papers) req).flatten
    ∧ markPosted p ∈ groupSel (resetFlags papers) req j1
    ∧ ∀ j, j ≠ j1 → ∀ q ∈ groupSel (resetFlags papers) req j, q.arxiv_id ≠ p.arxiv_id := by
  have hlnodup : ((resetFlags papers).map (fun q => q.arxiv_id)).Nodup := by
    rw [resetFlags_map_id]; exact hnodup
  have hflag : p.posted_to_slack = false := mem_resetFlags_flag papers p hp
  refine ⟨filterLoop_fst_flatten req (resetFlags papers), ?_, ?_⟩
  · rw [groupSel_eq req (resetFlags papers) j1 h1]
    exact List.mem_map_of_mem markPosted
      (List.mem_filter.mpr ⟨hp, by simp [hflag, hfirst]; exact hq1⟩)
  · intro j hne q hq
    by_cases hlen : j < req.length
    case neg =>
      rw [groupSel_out_of_range req (resetFlags papers) j (Nat.le_of_not_lt hlen)] at hq
      simp at hq
    case pos =>
      rw [groupSel_eq req (resetFlags papers) j hlen] at hq
      obtain ⟨r, hrf, rfl⟩ := List.mem_map.mp hq
      have hr := List.mem_filter.mp hrf
      intro heq
      have hid : r.arxiv_id = p.arxiv_id := heq
      have hrp : r = p := List.inj_on_of_nodup_map hlnodup hr.1 hp hid
      subst hrp
      have hpred := hr.2
      simp only [Bool.and_eq_true, Bool.not_eq_true'] at hpred
      rcases Nat.lt_or_ge j j1 with hj | hj
      · have hjt : j < (req.take j1).length := by
          simp only [List.length_take]
          omega
        have hmem : req.get ⟨j, hlen⟩ ∈ req.take j1 := by
          have hgt := List.getElem_take (L := req) (j := j1) (i := j) (h := hjt)
          have hmem0 : (req.take j1)[j] ∈ req.take j1 := List.getElem_mem hjt
          rw [hgt] at hmem0
          simpa [List.get_eq_getElem] using hmem0
        rw [anyQual] at hfirst
        exact (List.any_eq_false.mp hfirst _ hmem) hpred.2
      · have hjlt : j1 < j := lt_of_le_of_ne hj (Ne.symm hne)
        have hjt : j1 < (req.take j).length := by
          simp only [List.length_take]
          omega
        have hmem : req.get ⟨j1, h1⟩ ∈ req.take j := by
          have hgt := List.getElem_take (L := req) (j := j) (i := j1) (h := hjt)
          have hmem0 : (req.take j)[j1] ∈ req.take j := List.getElem_mem hjt
          rw [hgt] at hmem0
          simpa [List.get_eq_getElem] using hmem0
        have hany := hpred.1.2
        rw [anyQual] at hany
        exact (List.any_eq_false.mp hany _ hmem) hq1

/-- C8 witness: one paper qualifying for both `#one` and `#two` is
selected for `#one` only. -/
theorem c8_witness :
    chQual "#one".toList 1
        ⟨"2301.00007".toList, "t".toList, "u".toList, ["k1".toList],
          [some "#one".toList, some "#two".toList], false⟩ = true
    ∧ chQual "#two".toList 1
        ⟨"2301.00007".toList, "t".toList, "u".toList, ["k1".toList],
          [some "#one".toList, some "#two".toList], false⟩ = true
    ∧ markPosted ⟨"2301.00007".toList, "t".toList, "u".toList, ["k1".toList],
          [some "#one".toList, some "#two".toList], false⟩
        ∈ groupSel (resetFlags [⟨"2301.00007".toList, "t".toList, "u".toList, ["k1".toList],
            [some "#one".toList, some "#two".toList], false⟩])
          [("#one".toList, 1), ("#two".toList, 1)] 0
    ∧ ∀ j, j ≠ 0 → ∀ q ∈ groupSel
          (resetFlags [⟨"2301.00007".toList, "t".toList, "u".toList, ["k1".toList],
            [some "#one".toList, some "#two".toList], false⟩])
          [("#one".toList, 1), ("#two".toList, 1)] j,
        q.arxiv_id ≠ ("2301.00007".toList : PyStr) := by
  have h := c8_first_qualifying_channel_wins
    [⟨"2301.00007".toList, "t".toList, "u".toList, ["k1".toList],
      [some "#one".toList, some "#two".toList], false⟩]
    [("#one".toList, 1), ("#two".toList, 1)]
    ⟨"2301.00007".toList, "t".toList, "u".toList, ["k1".toList],
      [some "#one".toList, some "#two".toList], false⟩
    0 (by decide) (by decide) (by decide) (by decide) (by decide)
  exact ⟨by decide, by decide, h.2.1, h.2.2⟩
